import Mathlib

/-!
# piet watchface (src/c/piet.c)

A shallow embedding of the watchface's callbacks.  The program state is the set of
C globals of piet.c together with the part of the host (window layers, scheduled
animations, application timers) that the callbacks read or write.  Host queries
(`clock_is_24h_style`, `battery_state_service_peek`, ...) are inputs of the callback
that performs them.  `app_timer_register` always returns a fresh handle, and the host
dispatches callbacks one at a time (`dispatch`, `app_event_loop`).
-/

namespace Piet

/-! ## Host data types -/

/-- The host rectangle type: origin `(x, y)` and size `(w, h)`. -/
structure GRect where
  x : Int
  y : Int
  w : Int
  h : Int
deriving DecidableEq, Repr

/-- The five layers created in `init`. -/
inductive LayerId where
  | bg
  | time
  | date
  | battery
  | bluetooth
deriving DecidableEq, Repr

/-- A scheduled frame animation: `property_animation_create_layer_frame (layer, NULL, end)`
with the duration given to `animation_set_duration`. -/
structure Animation where
  layer : LayerId
  to_frame : GRect
  duration_ms : Nat
deriving DecidableEq, Repr

/-- The host battery report; `charge_percent` is a `uint8_t`. -/
structure BatteryChargeState where
  charge_percent : Nat
  is_charging : Bool
  is_plugged : Bool
deriving DecidableEq, Repr

/-- A signed 16-bit machine integer. -/
abbrev int16_t := { v : Int // -32768 ≤ v ∧ v ≤ 32767 }

/-- One accelerometer sample; `timestamp` is a `uint64_t`. -/
structure AccelData where
  x : int16_t
  y : int16_t
  z : int16_t
  did_vibrate : Bool
  timestamp : Nat
deriving DecidableEq

/-- The fields of `struct tm` read by the program (all of C type `int`). -/
structure Tm where
  tm_min : Int
  tm_hour : Int
  tm_mday : Int
  tm_mon : Int
deriving DecidableEq, Repr

/-- A timer registered with the host and neither fired nor cancelled yet. -/
structure AppTimer where
  id : Nat
  timeout_ms : Nat
deriving DecidableEq, Repr

/-! ## Program state -/

/-- The globals of piet.c (`g_*`, the function-local static `prev_accel`) and the host
state they act on.  `show_date_calls` is a ghost counter of entries into `show_date`;
`stale_cancels` is a ghost counter of `app_timer_cancel` calls on a handle that is not
registered any more. -/
structure State where
  g_show_timer : Option Nat
  g_battery_on : Bool
  g_date_on_rect : GRect
  g_date_off_rect : GRect
  g_battery_on_rect : GRect
  g_battery_off_rect : GRect
  g_bluetooth_on_rect : GRect
  g_bluetooth_off_rect : GRect
  prev_accel : AccelData
  bg_frame : GRect
  time_frame : GRect
  date_frame : GRect
  battery_frame : GRect
  bluetooth_frame : GRect
  time_text : List Char
  date_text : List Char
  battery_text : List Char
  scheduled : List Animation
  timers : List AppTimer
  next_timer : Nat
  accel_samples_per_update : Option Nat
  show_date_calls : Nat
  stale_cancels : Nat
deriving DecidableEq

def SCREEN_WIDTH : Int := 144

def SCREEN_HEIGHT : Int := 168

/-! ## C arithmetic and formatting -/

/-- Two-complement wrap of a mathematical integer into the 32-bit `int`. -/
def wrap_int (v : Int) : Int := (v + 2147483648) % 4294967296 - 2147483648

/-- The cast `(int) n` of a `uint32_t`. -/
def int_of_uint32 (n : Nat) : Int := wrap_int (Int.ofNat (n % 4294967296))

def digit_char (d : Nat) : Char := Char.ofNat (48 + d % 10)

/-- Decimal digits of a natural number, most significant first (`fuel` bounds the
number of digits). -/
def utoa : Nat → Nat → List Char
  | 0, n => [digit_char n]
  | fuel + 1, n => if n < 10 then [digit_char n] else utoa fuel (n / 10) ++ [digit_char n]

/-- The conversion `%d`. -/
def fmt_d (v : Int) : List Char :=
  if v < 0 then '-' :: utoa v.natAbs v.natAbs else utoa v.natAbs v.natAbs

/-- The conversion `%02d`: zero padding up to a field width of two, sign included. -/
def fmt_02d (v : Int) : List Char :=
  let digits := utoa v.natAbs v.natAbs
  if v < 0 then '-' :: (List.replicate (1 - digits.length) '0' ++ digits)
  else List.replicate (2 - digits.length) '0' ++ digits

/-- What `snprintf (buf, size, ...)` leaves in `buf` (before the terminating NUL) when
the formatted text is `out`. -/
def snprintf (size : Nat) (out : List Char) : List Char := out.take (size - 1)

/-- The conversion `%B` of `strftime` (C locale). -/
def month_name (tm_mon : Int) : List Char :=
  if tm_mon = 0 then "January".toList
  else if tm_mon = 1 then "February".toList
  else if tm_mon = 2 then "March".toList
  else if tm_mon = 3 then "April".toList
  else if tm_mon = 4 then "May".toList
  else if tm_mon = 5 then "June".toList
  else if tm_mon = 6 then "July".toList
  else if tm_mon = 7 then "August".toList
  else if tm_mon = 8 then "September".toList
  else if tm_mon = 9 then "October".toList
  else if tm_mon = 10 then "November".toList
  else if tm_mon = 11 then "December".toList
  else []

/-! ## piet.c -/

def time_str (is24h : Bool) (time : Tm) : List Char :=
  let h := time.tm_hour
  let h := if !is24h then (if h = 0 then 12 else if h > 12 then h - 12 else h) else h
  snprintf 32 (fmt_d h ++ ':' :: fmt_02d time.tm_min)

def date_str (time : Tm) : List Char :=
  let month := snprintf 32 (month_name time.tm_mon ++ [' '])
  month ++ snprintf (32 - month.length) (fmt_d time.tm_mday)

def battery_str (charge : BatteryChargeState) : List Char :=
  snprintf 32 ((if charge.is_charging then ['+'] else []) ++
    fmt_d (Int.ofNat charge.charge_percent) ++ ['%'])

def animate (layer : LayerId) (to_frame : GRect) (s : State) : State :=
  { s with scheduled := ⟨layer, to_frame, 300⟩ :: s.scheduled }

def bluetooth_connection_handler (connected : Bool) (s : State) : State :=
  animate .bluetooth (if connected then s.g_bluetooth_off_rect else s.g_bluetooth_on_rect) s

def battery_state_handler (charge : BatteryChargeState) (s : State) : State :=
  let s := { s with battery_text := battery_str charge }
  let battery_on := decide (charge.charge_percent < 30) || charge.is_charging
  let s :=
    if battery_on != s.g_battery_on then
      animate .battery (if battery_on then s.g_battery_on_rect else s.g_battery_off_rect) s
    else s
  { s with g_battery_on := battery_on }

/-- The body of `app_timer_handler`; `peek` is the value of `battery_state_service_peek ()`. -/
def app_timer_handler (peek : BatteryChargeState) (s : State) : State :=
  let s := { s with g_show_timer := none }
  let s := battery_state_handler peek s
  let s := animate .date s.g_date_off_rect s
  if !s.g_battery_on then animate .battery s.g_battery_off_rect s else s

/-- Host call `app_timer_cancel`: the timer leaves the set of registered timers. -/
def app_timer_cancel (t : Nat) (s : State) : State :=
  if s.timers.any (fun a => a.id == t) then
    { s with timers := s.timers.filter (fun a => a.id != t) }
  else
    { s with stale_cancels := s.stale_cancels + 1 }

/-- Host call `app_timer_register`: a fresh handle is registered and returned. -/
def app_timer_register (timeout_ms : Nat) (s : State) : Nat × State :=
  (s.next_timer,
    { s with timers := ⟨s.next_timer, timeout_ms⟩ :: s.timers, next_timer := s.next_timer + 1 })

def show_date (s : State) : State :=
  let s := { s with show_date_calls := s.show_date_calls + 1 }
  let s := animate .date s.g_date_on_rect s
  let s := if !s.g_battery_on then animate .battery s.g_battery_on_rect s else s
  let s :=
    match s.g_show_timer with
    | some t => app_timer_cancel t s
    | none => s
  let r := app_timer_register 3000 s
  { r.2 with g_show_timer := some r.1 }

/-- One iteration of the loop of `accel_data_handler`, for the sample `accel = data[i]`. -/
def accel_iteration (s : State) (accel : AccelData) : State :=
  let s :=
    if s.prev_accel.timestamp ≠ 0 then
      let dy := wrap_int (accel.y.val - s.prev_accel.y.val)
      if dy > 2500 ∨ dy < -2500 then show_date s else s
    else s
  { s with prev_accel := accel }

/-- The loop `for (int i = 0; i < (int) n; ++i)` over `data`, where the host passes the
number of samples of `data` as `n`. -/
def accel_data_handler (data : List AccelData) (s : State) : State :=
  (data.take (int_of_uint32 data.length).toNat).foldl accel_iteration s

def tick_timer_handler (is24h : Bool) (tick_time : Tm) (s : State) : State :=
  let time_rect := s.time_frame
  let h := tick_time.tm_hour
  let h := if h > 12 ∧ !is24h then h - 12 else h
  let time_rect := if h ≥ 10 then { time_rect with x := 1 } else { time_rect with x := 10 }
  { s with
    time_frame := time_rect
    time_text := time_str is24h tick_time
    date_text := date_str tick_time
    accel_samples_per_update := some 1 }

/-- What the host reports to `init`: the root layer frame, the local time, the clock
style, and the peeked Bluetooth and battery states. -/
structure Env where
  bounds : GRect
  now : Tm
  is24h : Bool
  connected : Bool
  charge : BatteryChargeState
deriving DecidableEq

def zero_rect : GRect := ⟨0, 0, 0, 0⟩

def zero_accel : AccelData :=
  ⟨⟨0, by decide⟩, ⟨0, by decide⟩, ⟨0, by decide⟩, false, 0⟩

/-- The state at program start: zero-initialised globals, no layer, no timer. -/
def boot : State :=
  { g_show_timer := none
    g_battery_on := false
    g_date_on_rect := zero_rect
    g_date_off_rect := zero_rect
    g_battery_on_rect := zero_rect
    g_battery_off_rect := zero_rect
    g_bluetooth_on_rect := zero_rect
    g_bluetooth_off_rect := zero_rect
    prev_accel := zero_accel
    bg_frame := zero_rect
    time_frame := zero_rect
    date_frame := zero_rect
    battery_frame := zero_rect
    bluetooth_frame := zero_rect
    time_text := []
    date_text := []
    battery_text := []
    scheduled := []
    timers := []
    next_timer := 0
    accel_samples_per_update := none
    show_date_calls := 0
    stale_cancels := 0 }

def init (env : Env) : State :=
  let s := boot
  let bounds := env.bounds
  let s := { s with bg_frame := bounds }
  let time_rect : GRect := ⟨10, 50, bounds.w, 80⟩
  let s := { s with time_frame := time_rect }
  let s := { s with g_date_on_rect := ⟨0, 10, 110, 30⟩, g_date_off_rect := ⟨-110, 10, 0, 30⟩ }
  let s := { s with date_frame := s.g_date_off_rect }
  let s := { s with
    g_battery_on_rect := ⟨100, 145, SCREEN_WIDTH - 100, SCREEN_HEIGHT - 145⟩
    g_battery_off_rect := ⟨SCREEN_WIDTH, 145, SCREEN_WIDTH - 100, SCREEN_HEIGHT - 145⟩ }
  let s := { s with battery_frame := s.g_battery_off_rect }
  let s := { s with
    g_bluetooth_on_rect := ⟨0, 145, 30, SCREEN_HEIGHT - 145⟩
    g_bluetooth_off_rect := ⟨-30, 145, 30, SCREEN_HEIGHT - 145⟩ }
  let s := { s with bluetooth_frame := s.g_bluetooth_off_rect }
  let s := tick_timer_handler env.is24h env.now s
  let s := bluetooth_connection_handler env.connected s
  let s := battery_state_handler env.charge s
  { s with accel_samples_per_update := some 1 }

/-! ## Host event loop -/

/-- The callbacks the host dispatches after `init`.  `timer t peek` is the expiry of the
registered timer with handle `t`, `peek` being the battery state the handler peeks. -/
inductive Event where
  | tick (tick_time : Tm) (is24h : Bool)
  | battery (charge : BatteryChargeState)
  | bluetooth (connected : Bool)
  | accel (data : List AccelData)
  | timer (t : Nat) (peek : BatteryChargeState)

/-- One dispatch of the host.  A timer expires only while it is registered, and leaves
the set of registered timers before its callback runs. -/
def dispatch (s : State) : Event → State
  | .tick tick_time is24h => tick_timer_handler is24h tick_time s
  | .battery charge => battery_state_handler charge s
  | .bluetooth connected => bluetooth_connection_handler connected s
  | .accel data => accel_data_handler data s
  | .timer t peek =>
    if s.timers.any (fun a => a.id == t) then
      app_timer_handler peek { s with timers := s.timers.filter (fun a => a.id != t) }
    else s

def app_event_loop (s : State) (events : List Event) : State :=
  events.foldl dispatch s

/-- The frame a layer is heading to: the end rectangle of the last animation scheduled
on it, or the frame it was created with. -/
def layer_frame (s : State) : LayerId → GRect
  | .bg => s.bg_frame
  | .time => s.time_frame
  | .date => s.date_frame
  | .battery => s.battery_frame
  | .bluetooth => s.bluetooth_frame

def slide_target (s : State) (layer : LayerId) : GRect :=
  match s.scheduled.find? (fun a => a.layer == layer) with
  | some a => a.to_frame
  | none => layer_frame s layer

/-! ## Specification vocabulary -/

/-- The pixel `(px, py)` lies in the rectangle. -/
def GRect.contains (r : GRect) (px py : Int) : Prop :=
  r.x ≤ px ∧ px < r.x + r.w ∧ r.y ≤ py ∧ py < r.y + r.h

/-- The pixel `(px, py)` lies on the screen `[0, SCREEN_WIDTH) x [0, SCREEN_HEIGHT)`. -/
def on_screen (px py : Int) : Prop :=
  0 ≤ px ∧ px < SCREEN_WIDTH ∧ 0 ≤ py ∧ py < SCREEN_HEIGHT

/-- A non-empty rectangle all of whose pixels are on the screen. -/
def inside_screen (r : GRect) : Prop :=
  0 < r.w ∧ 0 < r.h ∧ ∀ px py : Int, r.contains px py → on_screen px py

/-- A rectangle that covers no pixel of the screen. -/
def off_screen (r : GRect) : Prop :=
  ∀ px py : Int, on_screen px py → ¬ r.contains px py

/-- The hour a 12-hour or 24-hour clock shows for `tm_hour`. -/
def shown_hour (is24h : Bool) (tm_hour : Int) : Int :=
  if is24h then tm_hour else (tm_hour + 11) % 12 + 1

/-- The state invariant of the watchface. -/
structure Inv (s : State) : Prop where
  date_on : s.g_date_on_rect = ⟨0, 10, 110, 30⟩
  date_off : s.g_date_off_rect = ⟨-110, 10, 0, 30⟩
  battery_on : s.g_battery_on_rect = ⟨100, 145, 44, 23⟩
  battery_off : s.g_battery_off_rect = ⟨144, 145, 44, 23⟩
  bluetooth_on : s.g_bluetooth_on_rect = ⟨0, 145, 30, 23⟩
  bluetooth_off : s.g_bluetooth_off_rect = ⟨-30, 145, 30, 23⟩
  date_target : slide_target s .date =
    if s.g_show_timer.isSome then s.g_date_on_rect else s.g_date_off_rect
  timers : s.timers = match s.g_show_timer with
    | some t => [⟨t, 3000⟩]
    | none => []
  fresh : ∀ t, s.g_show_timer = some t → t < s.next_timer
  stale : s.stale_cancels = 0
  battery_latched : s.g_battery_on = true → slide_target s .battery = s.g_battery_on_rect
  battery_idle : s.g_show_timer = none → s.g_battery_on = false →
    slide_target s .battery = s.g_battery_off_rect


/-- The samples handed to `accel_data_handler` by a sequence of callbacks, in order. -/
def delivered : List Event → List AccelData
  | [] => []
  | .accel data :: events => data ++ delivered events
  | _ :: events => delivered events

/-- The trigger condition of a sample `s` that follows the delivered samples `stream`:
there is an immediately preceding sample `p` with a non-zero timestamp whose `y` differs
from that of `s` by more than 2500, as an exact integer difference. -/
def triggers (stream : List AccelData) (s : AccelData) : Prop :=
  ∃ p, stream.getLast? = some p ∧ p.timestamp ≠ 0 ∧ 2500 < |s.y.val - p.y.val|

/-- The connectivity most recently reported to `bluetooth_connection_handler`, starting
from the state `connected` peeked in `init`. -/
def last_connected (connected : Bool) : List Event → Bool
  | [] => connected
  | .bluetooth c :: events => last_connected c events
  | _ :: events => last_connected connected events

/-- The value assigned to the latch: `charge_percent < 30 || is_charging`. -/
def low_or_charging (charge : BatteryChargeState) : Bool :=
  decide (charge.charge_percent < 30) || charge.is_charging

/-! ## Sample inputs -/

def sample_env : Env :=
  ⟨⟨0, 0, 144, 168⟩, ⟨0, 0, 1, 0⟩, false, true, ⟨50, false, false⟩⟩

def sample_accel (y : int16_t) (timestamp : Nat) : AccelData :=
  ⟨⟨0, by decide⟩, y, ⟨0, by decide⟩, false, timestamp⟩

/-- One batch of two samples whose `y` values differ by 3000. -/
def shake : Event :=
  .accel [sample_accel ⟨0, by decide⟩ 1, sample_accel ⟨3000, by decide⟩ 2]

/-! ## Formatting lemmas -/

lemma fmt_d_hour (h : Int) (h0 : 0 ≤ h) (h1 : h < 24) :
    fmt_d h = Nat.toDigits 10 h.toNat ∧
      (h < 10 → (fmt_d h).length = 1) ∧ (10 ≤ h → (fmt_d h).length = 2) := by
  interval_cases h <;> refine ⟨by rfl, by decide, by decide⟩

lemma fmt_02d_minute (m : Int) (h0 : 0 ≤ m) (h1 : m < 60) :
    fmt_02d m = [digit_char (m.toNat / 10), digit_char (m.toNat % 10)] := by
  interval_cases m <;> rfl

lemma shown_hour_range (is24h : Bool) (h : Int) (h0 : 0 ≤ h) (h1 : h < 24) :
    0 ≤ shown_hour is24h h ∧ shown_hour is24h h < 24 ∧
      (is24h = false → 1 ≤ shown_hour is24h h ∧ shown_hour is24h h ≤ 12) := by
  unfold shown_hour
  cases is24h <;> simp <;> omega

lemma time_str_hour (is24h : Bool) (h : Int) (h0 : 0 ≤ h) (h1 : h < 24) :
    (if (!is24h) = true then (if h = 0 then 12 else if h > 12 then h - 12 else h) else h) =
      shown_hour is24h h := by
  unfold shown_hour
  cases is24h
  · simp only [Bool.not_false, if_true, Bool.false_eq_true, if_false]
    split_ifs <;> omega
  · simp

/-! ## The state invariant -/

lemma inv_init (env : Env) : Inv (init env) := by
  cases hc : (decide (env.charge.charge_percent < 30) || env.charge.is_charging) <;>
  simp only [init, battery_state_handler, hc] <;>
  exact ⟨rfl, rfl, rfl, rfl, rfl, rfl, rfl, rfl, fun _ h => (by cases h), rfl,
    fun h => (by first | rfl | cases h), fun _ h => (by first | rfl | cases h)⟩

lemma inv_battery (charge : BatteryChargeState) (s : State) (h : Inv s) :
    Inv (battery_state_handler charge s) := by
  cases hc : (decide (charge.charge_percent < 30) || charge.is_charging) <;>
  cases hb : s.g_battery_on <;>
  simp only [battery_state_handler, hc, hb] 
  · exact ⟨h.date_on, h.date_off, h.battery_on, h.battery_off, h.bluetooth_on, h.bluetooth_off,
      h.date_target, h.timers, h.fresh, h.stale, fun h => (by cases h), fun ht _ => h.battery_idle ht hb⟩
  · exact ⟨h.date_on, h.date_off, h.battery_on, h.battery_off, h.bluetooth_on, h.bluetooth_off,
      h.date_target, h.timers, h.fresh, h.stale, fun h => (by cases h), fun _ _ => rfl⟩
  · exact ⟨h.date_on, h.date_off, h.battery_on, h.battery_off, h.bluetooth_on, h.bluetooth_off,
      h.date_target, h.timers, h.fresh, h.stale, fun _ => rfl, fun _ h => (by cases h)⟩
  · exact ⟨h.date_on, h.date_off, h.battery_on, h.battery_off, h.bluetooth_on, h.bluetooth_off,
      h.date_target, h.timers, h.fresh, h.stale, fun _ => h.battery_latched hb, fun _ h => (by cases h)⟩

lemma inv_bluetooth (connected : Bool) (s : State) (h : Inv s) :
    Inv (bluetooth_connection_handler connected s) :=
  ⟨h.date_on, h.date_off, h.battery_on, h.battery_off, h.bluetooth_on, h.bluetooth_off,
    h.date_target, h.timers, h.fresh, h.stale, h.battery_latched, h.battery_idle⟩

lemma inv_tick (is24h : Bool) (tick_time : Tm) (s : State) (h : Inv s) :
    Inv (tick_timer_handler is24h tick_time s) :=
  ⟨h.date_on, h.date_off, h.battery_on, h.battery_off, h.bluetooth_on, h.bluetooth_off,
    h.date_target, h.timers, h.fresh, h.stale, h.battery_latched, h.battery_idle⟩

lemma timers_of_pending {s : State} (h : Inv s) {t : Nat} (ht : s.g_show_timer = some t) :
    s.timers = [⟨t, 3000⟩] := by
  have := h.timers
  rw [ht] at this
  exact this

lemma timers_of_idle {s : State} (h : Inv s) (ht : s.g_show_timer = none) :
    s.timers = [] := by
  have := h.timers
  rw [ht] at this
  exact this

lemma inv_show_date (s : State) (h : Inv s) : Inv (show_date s) := by
  rcases s with ⟨_ | t, _ | _⟩
  · have htm : _ = [] := h.timers
    subst htm
    exact ⟨h.date_on, h.date_off, h.battery_on, h.battery_off, h.bluetooth_on, h.bluetooth_off,
      rfl, rfl, fun _ e => (by cases e; exact Nat.lt_succ_self _), h.stale,
      fun e => (by cases e), fun e _ => (by cases e)⟩
  · have htm : _ = [] := h.timers
    subst htm
    exact ⟨h.date_on, h.date_off, h.battery_on, h.battery_off, h.bluetooth_on, h.bluetooth_off,
      rfl, rfl, fun _ e => (by cases e; exact Nat.lt_succ_self _), h.stale,
      fun _ => h.battery_latched rfl, fun e _ => (by cases e)⟩
  · have htm : _ = [_] := h.timers
    subst htm
    simp only [show_date, app_timer_register, app_timer_cancel, animate,
      List.any_cons, List.any_nil, beq_self_eq_true, Bool.or_false, if_true, List.filter_cons,
      List.filter_nil, bne_self_eq_false, Bool.false_eq_true, if_false, Bool.not_false]
    exact ⟨h.date_on, h.date_off, h.battery_on, h.battery_off, h.bluetooth_on, h.bluetooth_off,
      rfl, rfl, fun _ e => (by cases e; exact Nat.lt_succ_self _), h.stale,
      fun e => (by cases e), fun e _ => (by cases e)⟩
  · have htm : _ = [_] := h.timers
    subst htm
    simp only [show_date, app_timer_register, app_timer_cancel, animate,
      List.any_cons, List.any_nil, beq_self_eq_true, Bool.or_false, if_true, List.filter_cons,
      List.filter_nil, bne_self_eq_false, Bool.false_eq_true, if_false, Bool.not_true]
    exact ⟨h.date_on, h.date_off, h.battery_on, h.battery_off, h.bluetooth_on, h.bluetooth_off,
      rfl, rfl, fun _ e => (by cases e; exact Nat.lt_succ_self _), h.stale,
      fun _ => h.battery_latched rfl, fun e _ => (by cases e)⟩

lemma inv_prev_accel (accel : AccelData) (s : State) (h : Inv s) :
    Inv { s with prev_accel := accel } :=
  ⟨h.date_on, h.date_off, h.battery_on, h.battery_off, h.bluetooth_on, h.bluetooth_off,
    h.date_target, h.timers, h.fresh, h.stale, h.battery_latched, h.battery_idle⟩

lemma inv_accel_iteration (accel : AccelData) (s : State) (h : Inv s) :
    Inv (accel_iteration s accel) := by
  unfold accel_iteration
  simp only []
  split_ifs
  · exact inv_prev_accel _ _ (inv_show_date _ h)
  · exact inv_prev_accel _ _ h
  · exact inv_prev_accel _ _ h

lemma inv_foldl_accel (data : List AccelData) (s : State) (h : Inv s) :
    Inv (data.foldl accel_iteration s) := by
  induction data generalizing s with
  | nil => exact h
  | cons a rest ih => exact ih _ (inv_accel_iteration a s h)

lemma inv_accel (data : List AccelData) (s : State) (h : Inv s) :
    Inv (accel_data_handler data s) :=
  inv_foldl_accel _ s h

lemma inv_app_timer_handler (peek : BatteryChargeState) (s : State) (h : Inv s) :
    Inv (app_timer_handler peek { s with timers := [] }) := by
  rcases s with ⟨tm, _ | _⟩ <;>
  cases hc : (decide (peek.charge_percent < 30) || peek.is_charging) <;>
  simp only [app_timer_handler, battery_state_handler, hc, animate, bne_self_eq_false,
    Bool.false_eq_true, if_false, if_true, Bool.not_false, Bool.not_true, bne, 
    Bool.true_eq_false]
  · exact ⟨h.date_on, h.date_off, h.battery_on, h.battery_off, h.bluetooth_on, h.bluetooth_off,
      rfl, rfl, fun _ e => (by cases e), h.stale, fun e => (by cases e), fun _ _ => rfl⟩
  · exact ⟨h.date_on, h.date_off, h.battery_on, h.battery_off, h.bluetooth_on, h.bluetooth_off,
      rfl, rfl, fun _ e => (by cases e), h.stale, fun _ => rfl, fun _ e => (by cases e)⟩
  · exact ⟨h.date_on, h.date_off, h.battery_on, h.battery_off, h.bluetooth_on, h.bluetooth_off,
      rfl, rfl, fun _ e => (by cases e), h.stale, fun e => (by cases e), fun _ _ => rfl⟩
  · exact ⟨h.date_on, h.date_off, h.battery_on, h.battery_off, h.bluetooth_on, h.bluetooth_off,
      rfl, rfl, fun _ e => (by cases e), h.stale, fun _ => h.battery_latched rfl,
      fun _ e => (by cases e)⟩

lemma inv_dispatch (s : State) (e : Event) (h : Inv s) : Inv (dispatch s e) := by
  cases e with
  | tick tick_time is24h => exact inv_tick _ _ _ h
  | battery charge => exact inv_battery _ _ h
  | bluetooth connected => exact inv_bluetooth _ _ h
  | accel data => exact inv_accel _ _ h
  | timer t peek =>
    simp only [dispatch]
    split_ifs with hp
    · have hf : s.timers.filter (fun a => a.id != t) = [] := by
        have ht := h.timers
        cases hs : s.g_show_timer with
        | none => rw [hs] at ht; simp [ht]
        | some t0 =>
          rw [hs] at ht
          simp only [ht, List.any_cons, List.any_nil, Bool.or_false, beq_iff_eq] at hp
          simp [ht, hp]
      rw [hf]
      exact inv_app_timer_handler peek s h
    · exact h

lemma inv_app_event_loop (events : List Event) (s : State) (h : Inv s) :
    Inv (app_event_loop s events) := by
  unfold app_event_loop
  induction events generalizing s with
  | nil => exact h
  | cons e rest ih => exact ih _ (inv_dispatch s e h)

lemma inv_reachable (env : Env) (events : List Event) :
    Inv (app_event_loop (init env) events) :=
  inv_app_event_loop events _ (inv_init env)

/-! ## Formatting, layout and the latch -/

/-- C1: for every charge state and every prior latch value, `battery_state_handler` leaves
`g_battery_on` equal to `charge_percent < 30 || is_charging`, and schedules one slide of
the battery label exactly when that value differs from the prior latch value, towards
`g_battery_on_rect` if the new value is true and `g_battery_off_rect` if it is false;
30 percent while not charging gives false and 29 percent gives true. -/
theorem battery_state_handler_latch (charge : BatteryChargeState) (s : State) :
    (battery_state_handler charge s).g_battery_on = low_or_charging charge ∧
    (battery_state_handler charge s).scheduled =
      (if low_or_charging charge = s.g_battery_on then s.scheduled
       else ⟨.battery, if low_or_charging charge = true then s.g_battery_on_rect
              else s.g_battery_off_rect, 300⟩ :: s.scheduled) ∧
    (∀ plugged, (battery_state_handler ⟨30, false, plugged⟩ s).g_battery_on = false) ∧
    (∀ charging plugged,
      (battery_state_handler ⟨29, charging, plugged⟩ s).g_battery_on = true) := by
  refine ⟨rfl, ?_, fun _ => rfl, fun _ _ => rfl⟩
  unfold low_or_charging
  cases hc : (decide (charge.charge_percent < 30) || charge.is_charging) <;>
    cases hb : s.g_battery_on <;>
    simp [battery_state_handler, hc, hb, animate]

/-- C6: for `tm_hour` in 0..23 and `tm_min` in 0..59, `time_str` is the decimal hour
without leading zero, a colon and the minute on exactly two digits, the hour shown being
`tm_hour` in 24-hour style and `((tm_hour + 11) mod 12) + 1` in 12-hour style; in 12-hour
style the hour shown is in 1..12, and the text is 4 or 5 characters long, so it fits the
32-byte buffer with its terminator. -/
theorem time_str_format (is24h : Bool) (time : Tm)
    (hh : 0 ≤ time.tm_hour ∧ time.tm_hour < 24) (hm : 0 ≤ time.tm_min ∧ time.tm_min < 60) :
    time_str is24h time =
      Nat.toDigits 10 (shown_hour is24h time.tm_hour).toNat ++
        [':', digit_char (time.tm_min.toNat / 10), digit_char (time.tm_min.toNat % 10)] ∧
    (is24h = false →
      1 ≤ shown_hour is24h time.tm_hour ∧ shown_hour is24h time.tm_hour ≤ 12) ∧
    ((time_str is24h time).length = 4 ∨ (time_str is24h time).length = 5) ∧
    (time_str is24h time).length + 1 ≤ 32 := by
  obtain ⟨r0, r1, r2⟩ := shown_hour_range is24h time.tm_hour hh.1 hh.2
  obtain ⟨d0, d1, d2⟩ := fmt_d_hour (shown_hour is24h time.tm_hour) r0 r1
  have hlen : (fmt_d (shown_hour is24h time.tm_hour)).length = 1 ∨
      (fmt_d (shown_hour is24h time.tm_hour)).length = 2 := by
    rcases lt_or_le (shown_hour is24h time.tm_hour) 10 with h | h
    · exact Or.inl (d1 h)
    · exact Or.inr (d2 h)
  have key : time_str is24h time =
      fmt_d (shown_hour is24h time.tm_hour) ++
        [':', digit_char (time.tm_min.toNat / 10), digit_char (time.tm_min.toNat % 10)] := by
    unfold time_str
    simp only []
    rw [time_str_hour is24h time.tm_hour hh.1 hh.2, fmt_02d_minute time.tm_min hm.1 hm.2]
    unfold snprintf
    apply List.take_of_length_le
    rcases hlen with h | h <;> simp [h]
  have klen : (time_str is24h time).length =
      (fmt_d (shown_hour is24h time.tm_hour)).length + 3 := by
    rw [key]; simp
  refine ⟨by rw [key, d0], r2, ?_, ?_⟩
  · rcases hlen with h | h <;> omega
  · rcases hlen with h | h <;> omega

/-- The instance of C6 at 23:05 on a 12-hour clock. -/
theorem time_str_format_witness :
    time_str false ⟨5, 23, 1, 0⟩ = ['1', '1', ':', '0', '5'] ∧
      (1 ≤ shown_hour false 23 ∧ shown_hour false 23 ≤ 12) ∧
      (time_str false ⟨5, 23, 1, 0⟩).length + 1 ≤ 32 :=
  have h := time_str_format false ⟨5, 23, 1, 0⟩ (by decide) (by decide)
  ⟨h.1, h.2.1 rfl, h.2.2.2⟩

/-- C8: each of the three rectangle pairs assigned in `init` is an on-screen/off-screen
pair for the 144 x 168 screen: the on rectangle lies inside the screen, the off rectangle
covers no pixel of it, and both have the same `y` origin and the same height. -/
theorem init_rect_pairs (env : Env) :
    SCREEN_WIDTH = 144 ∧ SCREEN_HEIGHT = 168 ∧
    inside_screen (init env).g_date_on_rect ∧ off_screen (init env).g_date_off_rect ∧
    (init env).g_date_on_rect.y = (init env).g_date_off_rect.y ∧
    (init env).g_date_on_rect.h = (init env).g_date_off_rect.h ∧
    inside_screen (init env).g_battery_on_rect ∧ off_screen (init env).g_battery_off_rect ∧
    (init env).g_battery_on_rect.y = (init env).g_battery_off_rect.y ∧
    (init env).g_battery_on_rect.h = (init env).g_battery_off_rect.h ∧
    inside_screen (init env).g_bluetooth_on_rect ∧
    off_screen (init env).g_bluetooth_off_rect ∧
    (init env).g_bluetooth_on_rect.y = (init env).g_bluetooth_off_rect.y ∧
    (init env).g_bluetooth_on_rect.h = (init env).g_bluetooth_off_rect.h := by
  have h := inv_init env
  rw [h.date_on, h.date_off, h.battery_on, h.battery_off, h.bluetooth_on, h.bluetooth_off]
  unfold inside_screen off_screen
  refine ⟨rfl, rfl, ⟨by decide, by decide, ?_⟩, ?_, rfl, rfl, ⟨by decide, by decide, ?_⟩, ?_,
    rfl, rfl, ⟨by decide, by decide, ?_⟩, ?_, rfl, rfl⟩ <;> intro px py <;>
    simp only [on_screen, GRect.contains, SCREEN_WIDTH, SCREEN_HEIGHT] <;> omega

/-- Away from midnight on a 12-hour clock, `tick_timer_handler` puts the time label at
x origin 1 when the hour rendered by `time_str` has two digits and at 10 when it has one,
and keeps the y origin and the size of the label. -/
lemma tick_timer_handler_x_origin (is24h : Bool) (tick_time : Tm) (s : State)
    (hh : 0 ≤ tick_time.tm_hour ∧ tick_time.tm_hour < 24)
    (hmid : tick_time.tm_hour ≠ 0 ∨ is24h = true) :
    (tick_timer_handler is24h tick_time s).time_frame =
      { s.time_frame with
        x := if 10 ≤ shown_hour is24h tick_time.tm_hour then 1 else 10 } := by
  unfold tick_timer_handler shown_hour
  cases is24h
  · have h0 : tick_time.tm_hour ≠ 0 := by simpa using hmid
    simp only [Bool.not_false, and_true, Bool.false_eq_true, if_false]
    split_ifs <;> first | rfl | omega
  · simp only [Bool.not_true, Bool.false_eq_true, and_false, if_false, if_true]
    split_ifs <;> rfl

/-- C10 at midnight on a 12-hour clock: `time_str` renders the two-digit hour 12, while
`tick_timer_handler` sets the x origin of the time label to 10, the one-digit position. -/
theorem tick_timer_handler_midnight (s : State) (tm_min tm_mday tm_mon : Int) :
    (tick_timer_handler false ⟨tm_min, 0, tm_mday, tm_mon⟩ s).time_frame.x = 10 ∧
    shown_hour false 0 = 12 ∧
    time_str false ⟨0, 0, tm_mday, tm_mon⟩ = ['1', '2', ':', '0', '0'] :=
  ⟨rfl, rfl, by simp only [time_str]; rfl⟩

/-! ## What each callback leaves alone -/

lemma date_rects_ne {s : State} (h : Inv s) : s.g_date_on_rect ≠ s.g_date_off_rect := by
  rw [h.date_on, h.date_off]; decide

lemma battery_rects_ne {s : State} (h : Inv s) : s.g_battery_on_rect ≠ s.g_battery_off_rect := by
  rw [h.battery_on, h.battery_off]; decide

lemma bluetooth_rects_ne {s : State} (h : Inv s) :
    s.g_bluetooth_on_rect ≠ s.g_bluetooth_off_rect := by
  rw [h.bluetooth_on, h.bluetooth_off]; decide

lemma show_date_fields (s : State) :
    (show_date s).g_show_timer = some s.next_timer ∧
    (show_date s).g_battery_on = s.g_battery_on ∧
    (show_date s).prev_accel = s.prev_accel ∧
    (show_date s).show_date_calls = s.show_date_calls + 1 ∧
    slide_target (show_date s) .date = s.g_date_on_rect ∧
    slide_target (show_date s) .bluetooth = slide_target s .bluetooth := by
  rcases s with ⟨_ | t, _ | _, _, _, _, _, _, _, _, _, _, _, _, _, _, _, _, _, tms⟩
  · exact ⟨rfl, rfl, rfl, rfl, rfl, rfl⟩
  · exact ⟨rfl, rfl, rfl, rfl, rfl, rfl⟩
  · cases hany : tms.any (fun a => a.id == t) <;>
      simp only [show_date, app_timer_cancel, animate, app_timer_register, hany, Bool.not_false,
        Bool.not_true, Bool.false_eq_true, if_true, if_false] <;>
      (repeat' apply And.intro) <;> first | rfl | trivial
  · cases hany : tms.any (fun a => a.id == t) <;>
      simp only [show_date, app_timer_cancel, animate, app_timer_register, hany, Bool.not_false,
        Bool.not_true, Bool.false_eq_true, if_true, if_false] <;>
      (repeat' apply And.intro) <;> first | rfl | trivial

lemma battery_state_handler_fields (charge : BatteryChargeState) (s : State) :
    (battery_state_handler charge s).g_show_timer = s.g_show_timer ∧
    (battery_state_handler charge s).g_battery_on = low_or_charging charge ∧
    (battery_state_handler charge s).prev_accel = s.prev_accel ∧
    (battery_state_handler charge s).show_date_calls = s.show_date_calls ∧
    slide_target (battery_state_handler charge s) .bluetooth = slide_target s .bluetooth := by
  unfold low_or_charging
  rcases s with ⟨tm, _ | _⟩ <;>
  cases hc : (decide (charge.charge_percent < 30) || charge.is_charging) <;>
  simp only [battery_state_handler, hc] <;>
  (repeat' apply And.intro) <;> first | rfl | trivial

lemma app_timer_handler_fields (peek : BatteryChargeState) (s : State) :
    (app_timer_handler peek s).g_show_timer = none ∧
    (app_timer_handler peek s).g_battery_on = low_or_charging peek ∧
    (app_timer_handler peek s).prev_accel = s.prev_accel ∧
    (app_timer_handler peek s).show_date_calls = s.show_date_calls ∧
    (app_timer_handler peek s).timers = s.timers ∧
    slide_target (app_timer_handler peek s) .date = s.g_date_off_rect ∧
    slide_target (app_timer_handler peek s) .bluetooth = slide_target s .bluetooth := by
  unfold low_or_charging
  rcases s with ⟨tm, _ | _⟩ <;>
  cases hc : (decide (peek.charge_percent < 30) || peek.is_charging) <;>
  simp only [app_timer_handler, battery_state_handler, hc] <;>
  (repeat' apply And.intro) <;> rfl

/-- The expiry of timer `t` runs `app_timer_handler` exactly when `t` is the pending
timer, and is not dispatched otherwise. -/
lemma dispatch_timer_eq {s : State} (h : Inv s) (t : Nat) (peek : BatteryChargeState) :
    dispatch s (.timer t peek) =
      if s.g_show_timer = some t then app_timer_handler peek { s with timers := [] } else s := by
  simp only [dispatch]
  have ht := h.timers
  cases hs : s.g_show_timer with
  | none => rw [hs] at ht; simp [ht]
  | some t0 =>
    rw [hs] at ht
    by_cases e : t0 = t
    · subst e; simp [ht]
    · simp [ht, e]

/-! ## Claims on the date label, the timer and the battery label -/

/-- C2: in every state reached from `init` by any sequence of callbacks, the slide target
of the date label is `g_date_on_rect` if and only if a timer is pending (`g_show_timer` is
not NULL), and it is `g_date_off_rect` otherwise; the expiry of the pending timer clears
`g_show_timer` and sends the date label to `g_date_off_rect`, and no other timer can
expire. -/
theorem date_shown_iff_timer_pending (env : Env) (events : List Event) :
    let s := app_event_loop (init env) events
    (slide_target s .date = s.g_date_on_rect ↔ s.g_show_timer ≠ none) ∧
    (slide_target s .date = s.g_date_off_rect ↔ s.g_show_timer = none) ∧
    ∀ (t : Nat) (peek : BatteryChargeState),
      if s.g_show_timer = some t then
        (dispatch s (.timer t peek)).g_show_timer = none ∧
        slide_target (dispatch s (.timer t peek)) .date = s.g_date_off_rect
      else dispatch s (.timer t peek) = s := by
  intro s
  have h : Inv s := inv_reachable env events
  clear_value s
  have hne := date_rects_ne h
  have hd := h.date_target
  refine ⟨?_, ?_, ?_⟩
  · cases hs : s.g_show_timer <;> rw [hs] at hd <;> simp at hd <;> simp [hd, hne.symm]
  · cases hs : s.g_show_timer <;> rw [hs] at hd <;> simp at hd <;> simp [hd, hne]
  · intro t peek
    rw [dispatch_timer_eq h]
    split_ifs with ht
    · exact ⟨(app_timer_handler_fields peek _).1, (app_timer_handler_fields peek _).2.2.2.2.2.1⟩
    · rfl

/-- C3: in every reachable state the host's set of registered timers is empty when
`g_show_timer` is NULL and is exactly the timer `g_show_timer`, registered for 3000 ms,
otherwise; no stale handle has been cancelled.  A call of `show_date` leaves exactly one
registered timer, a fresh one with a 3000 ms delay that `g_show_timer` then holds, and
cancels no stale handle; `app_timer_handler` clears `g_show_timer`. -/
theorem single_pending_timer (env : Env) (events : List Event) :
    let s := app_event_loop (init env) events
    (s.timers = match s.g_show_timer with
      | some t => [⟨t, 3000⟩]
      | none => []) ∧
    s.timers.length ≤ 1 ∧
    s.stale_cancels = 0 ∧
    (show_date s).timers = [⟨s.next_timer, 3000⟩] ∧
    (show_date s).g_show_timer = some s.next_timer ∧
    s.g_show_timer ≠ some s.next_timer ∧
    (show_date s).stale_cancels = 0 ∧
    ∀ peek : BatteryChargeState, (app_timer_handler peek s).g_show_timer = none := by
  intro s
  have h : Inv s := inv_reachable env events
  clear_value s
  have h2 := inv_show_date s h
  refine ⟨h.timers, ?_, h.stale, ?_, (show_date_fields s).1, ?_, h2.stale,
    fun peek => (app_timer_handler_fields peek s).1⟩
  · rw [h.timers]
    cases s.g_show_timer <;> simp
  · exact timers_of_pending h2 (show_date_fields s).1
  · intro e
    exact absurd (h.fresh _ e) (lt_irrefl _)

/-- C5 as stated fails: after `init` at 50 percent, not charging, and one shake, the
battery label is heading to `g_battery_on_rect` while the latch `g_battery_on` is false. -/
theorem battery_latch_not_iff_shown :
    ¬ ((app_event_loop (init sample_env) [shake]).g_battery_on = true ↔
        slide_target (app_event_loop (init sample_env) [shake]) .battery =
          (app_event_loop (init sample_env) [shake]).g_battery_on_rect) := by
  decide

/-- C5, amended: in every reachable state, if the latch `g_battery_on` is true then the
slide target of the battery label is `g_battery_on_rect`; and if the slide target is
`g_battery_on_rect` then the latch is true or a timer is pending. -/
theorem battery_latch_implies_shown (env : Env) (events : List Event) :
    let s := app_event_loop (init env) events
    (s.g_battery_on = true → slide_target s .battery = s.g_battery_on_rect) ∧
    (slide_target s .battery = s.g_battery_on_rect →
      s.g_battery_on = true ∨ s.g_show_timer ≠ none) := by
  intro s
  have h : Inv s := inv_reachable env events
  clear_value s
  refine ⟨h.battery_latched, fun ht => ?_⟩
  by_contra hc
  push_neg at hc
  have hb : s.g_battery_on = false := by simpa using hc.1
  exact battery_rects_ne h (ht.symm.trans (h.battery_idle hc.2 hb))

/-- The instance of the amended C5 after `init` at 20 percent: the latch is true and the
battery label is heading on screen. -/
theorem battery_latch_implies_shown_witness :
    (init { sample_env with charge := ⟨20, false, false⟩ }).g_battery_on = true ∧
    slide_target (init { sample_env with charge := ⟨20, false, false⟩ }) .battery =
      (init { sample_env with charge := ⟨20, false, false⟩ }).g_battery_on_rect :=
  ⟨by decide,
    (battery_latch_implies_shown { sample_env with charge := ⟨20, false, false⟩ } []).1
      (by decide)⟩

/-- C9: in every reachable state with no pending timer, the slide target of the battery
label is `g_battery_on_rect` if and only if `g_battery_on` is true; and right after the
pending timer expires the battery label is heading to `g_battery_on_rect` exactly when
the peeked charge state has `charge_percent < 30` or `is_charging`. -/
theorem battery_shown_iff_latch_when_idle (env : Env) (events : List Event) :
    let s := app_event_loop (init env) events
    (s.g_show_timer = none →
      (slide_target s .battery = s.g_battery_on_rect ↔ s.g_battery_on = true)) ∧
    ∀ (t : Nat) (peek : BatteryChargeState), s.g_show_timer = some t →
      (slide_target (dispatch s (.timer t peek)) .battery =
          (dispatch s (.timer t peek)).g_battery_on_rect ↔
        (peek.charge_percent < 30 ∨ peek.is_charging = true)) := by
  intro s
  have h : Inv s := inv_reachable env events
  clear_value s
  have idle : ∀ s2 : State, Inv s2 → s2.g_show_timer = none →
      (slide_target s2 .battery = s2.g_battery_on_rect ↔ s2.g_battery_on = true) := by
    intro s2 h2 hn
    constructor
    · intro ht
      by_contra hc
      have hb : s2.g_battery_on = false := by simpa using hc
      exact battery_rects_ne h2 (ht.symm.trans (h2.battery_idle hn hb))
    · exact h2.battery_latched
  refine ⟨idle s h, fun t peek ht => ?_⟩
  have h2 : Inv (dispatch s (.timer t peek)) := inv_dispatch s _ h
  rw [dispatch_timer_eq h, if_pos ht] at h2 ⊢
  rw [idle _ h2 (app_timer_handler_fields peek _).1, (app_timer_handler_fields peek _).2.1]
  simp [low_or_charging]

/-- The instance of C9 after `init` at 50 percent and one shake: the timer with handle 0
is pending, and when it expires with 20 percent peeked the battery label heads on
screen. -/
theorem battery_shown_iff_latch_when_idle_witness :
    (init sample_env).g_show_timer = none ∧
    (slide_target (init sample_env) .battery = (init sample_env).g_battery_on_rect ↔
      (init sample_env).g_battery_on = true) ∧
    (app_event_loop (init sample_env) [shake]).g_show_timer = some 0 ∧
    slide_target (dispatch (app_event_loop (init sample_env) [shake])
        (.timer 0 ⟨20, false, false⟩)) .battery =
      (dispatch (app_event_loop (init sample_env) [shake])
        (.timer 0 ⟨20, false, false⟩)).g_battery_on_rect :=
  ⟨by decide,
    (battery_shown_iff_latch_when_idle sample_env []).1 (by decide),
    by decide,
    ((battery_shown_iff_latch_when_idle sample_env [shake]).2 0 ⟨20, false, false⟩
      (by decide)).2 (by decide)⟩

/-! ## The Bluetooth icon -/

lemma accel_iteration_bluetooth (s : State) (accel : AccelData) :
    slide_target (accel_iteration s accel) .bluetooth = slide_target s .bluetooth := by
  unfold accel_iteration
  simp only []
  split_ifs
  · exact (show_date_fields s).2.2.2.2.2
  · rfl
  · rfl

lemma foldl_accel_bluetooth (data : List AccelData) (s : State) :
    slide_target (data.foldl accel_iteration s) .bluetooth = slide_target s .bluetooth := by
  induction data generalizing s with
  | nil => rfl
  | cons a rest ih => exact (ih _).trans (accel_iteration_bluetooth s a)

lemma dispatch_bluetooth_target {s : State} (h : Inv s) (e : Event)
    (he : ∀ c, e ≠ .bluetooth c) :
    slide_target (dispatch s e) .bluetooth = slide_target s .bluetooth := by
  cases e with
  | tick tick_time is24h => rfl
  | battery charge => exact (battery_state_handler_fields charge s).2.2.2.2
  | bluetooth connected => exact absurd rfl (he connected)
  | accel data => exact foldl_accel_bluetooth _ s
  | timer t peek =>
    rw [dispatch_timer_eq h]
    split_ifs
    · exact (app_timer_handler_fields peek _).2.2.2.2.2.2
    · rfl

lemma bluetooth_loop (events : List Event) (s : State) (c : Bool) (h : Inv s)
    (hb : slide_target s .bluetooth = if c then ⟨-30, 145, 30, 23⟩ else ⟨0, 145, 30, 23⟩) :
    slide_target (app_event_loop s events) .bluetooth =
      if last_connected c events then ⟨-30, 145, 30, 23⟩ else ⟨0, 145, 30, 23⟩ := by
  induction events generalizing s c with
  | nil => exact hb
  | cons e rest ih =>
    have step : app_event_loop s (e :: rest) = app_event_loop (dispatch s e) rest := rfl
    rw [step]
    by_cases he : ∃ c2, e = .bluetooth c2
    · obtain ⟨c2, rfl⟩ := he
      refine ih _ c2 (inv_dispatch s _ h) ?_
      show (if c2 = true then s.g_bluetooth_off_rect else s.g_bluetooth_on_rect) = _
      rw [h.bluetooth_off, h.bluetooth_on]
    · push_neg at he
      have hl : last_connected c (e :: rest) = last_connected c rest := by
        cases e with
        | bluetooth c2 => exact absurd rfl (he c2)
        | _ => rfl
      rw [hl]
      exact ih _ c (inv_dispatch s _ h) ((dispatch_bluetooth_target h e he).trans hb)

/-- C7: `bluetooth_connection_handler` schedules one 300 ms slide of the Bluetooth icon,
to `g_bluetooth_off_rect` when connected and to `g_bluetooth_on_rect` when not, and
changes nothing else; after `init` and any sequence of callbacks the slide target of the
icon is `g_bluetooth_on_rect` exactly when the most recently reported state is
disconnected, and `g_bluetooth_off_rect` exactly when it is connected. -/
theorem bluetooth_icon_follows_connectivity (env : Env) (events : List Event)
    (connected : Bool) (s0 : State) :
    bluetooth_connection_handler connected s0 =
      { s0 with scheduled :=
          ⟨.bluetooth, if connected then s0.g_bluetooth_off_rect else s0.g_bluetooth_on_rect,
            300⟩ :: s0.scheduled } ∧
    (let s := app_event_loop (init env) events
     (slide_target s .bluetooth = s.g_bluetooth_on_rect ↔
        last_connected env.connected events = false) ∧
     (slide_target s .bluetooth = s.g_bluetooth_off_rect ↔
        last_connected env.connected events = true)) := by
  refine ⟨rfl, ?_⟩
  intro s
  have hi : slide_target (init env) .bluetooth =
      if env.connected then ⟨-30, 145, 30, 23⟩ else ⟨0, 145, 30, 23⟩ :=
    (battery_state_handler_fields env.charge _).2.2.2.2
  have ht : slide_target s .bluetooth = _ := bluetooth_loop events (init env) _ (inv_init env) hi
  have h : Inv s := inv_reachable env events
  clear_value s
  rw [ht, h.bluetooth_on, h.bluetooth_off]
  cases last_connected env.connected events <;> simp

/-! ## The accelerometer loop -/

lemma wrap_int_sub (a b : int16_t) : wrap_int (a.val - b.val) = a.val - b.val := by
  have ha := a.property
  have hb := b.property
  unfold wrap_int
  omega

lemma int_of_uint32_small (n : Nat) (h : n < 2147483648) : (int_of_uint32 n).toNat = n := by
  unfold int_of_uint32 wrap_int
  simp only [Int.ofNat_eq_coe]
  omega

lemma accel_data_handler_eq (data : List AccelData) (s : State)
    (h : data.length < 2147483648) :
    accel_data_handler data s = data.foldl accel_iteration s := by
  unfold accel_data_handler
  rw [int_of_uint32_small _ h, List.take_length]

lemma accel_iteration_fields (s : State) (accel : AccelData) :
    (accel_iteration s accel).prev_accel = accel ∧
    (accel_iteration s accel).show_date_calls = s.show_date_calls +
      if s.prev_accel.timestamp ≠ 0 ∧ 2500 < |accel.y.val - s.prev_accel.y.val| then 1 else 0 := by
  unfold accel_iteration
  simp only [wrap_int_sub]
  by_cases ht : s.prev_accel.timestamp = 0
  · simp [ht]
  · by_cases hd : accel.y.val - s.prev_accel.y.val > 2500 ∨
        accel.y.val - s.prev_accel.y.val < -2500
    · have habs : 2500 < |accel.y.val - s.prev_accel.y.val| := by
        rcases hd with h | h
        · exact lt_of_lt_of_le h (le_abs_self _)
        · rw [lt_abs]; right; omega
      simp only [ne_eq, ht, not_false_eq_true, hd, if_true, habs, and_self]
      exact ⟨trivial, (show_date_fields s).2.2.2.1⟩
    · have habs : ¬ 2500 < |accel.y.val - s.prev_accel.y.val| := by
        rw [lt_abs]; omega
      simp only [ne_eq, ht, not_false_eq_true, hd, if_true, if_false, habs, and_false]
      exact ⟨trivial, rfl⟩

lemma foldl_accel_prev (data : List AccelData) (s : State) :
    (data.foldl accel_iteration s).prev_accel = data.getLast?.getD s.prev_accel := by
  induction data generalizing s with
  | nil => rfl
  | cons a rest ih =>
    rw [List.foldl_cons, ih, (accel_iteration_fields s a).1]
    cases rest with
    | nil => rfl
    | cons b rest2 =>
      rw [List.getLast?_cons_cons]
      cases hl : (b :: rest2).getLast? with
      | none => simp at hl
      | some p => rfl

lemma dispatch_prev_accel (s : State) (e : Event) (he : ∀ d, e ≠ .accel d) :
    (dispatch s e).prev_accel = s.prev_accel := by
  cases e with
  | tick tick_time is24h => rfl
  | battery charge => exact (battery_state_handler_fields charge s).2.2.1
  | bluetooth connected => rfl
  | accel data => exact absurd rfl (he data)
  | timer t peek =>
    simp only [dispatch]
    split_ifs
    · exact (app_timer_handler_fields peek _).2.2.1
    · rfl

lemma loop_prev_accel (events : List Event) (s : State)
    (hsize : ∀ d, Event.accel d ∈ events → d.length < 2147483648) :
    (app_event_loop s events).prev_accel = (delivered events).getLast?.getD s.prev_accel := by
  induction events generalizing s with
  | nil => rfl
  | cons e rest ih =>
    have step : app_event_loop s (e :: rest) = app_event_loop (dispatch s e) rest := rfl
    have hrest : ∀ d, Event.accel d ∈ rest → d.length < 2147483648 :=
      fun d hd => hsize d (List.mem_cons_of_mem _ hd)
    rw [step, ih _ hrest]
    by_cases he : ∃ d, e = .accel d
    · obtain ⟨d, rfl⟩ := he
      have hd : d.length < 2147483648 := hsize d (List.mem_cons_self _ _)
      show _ = (d ++ delivered rest).getLast?.getD s.prev_accel
      rw [show dispatch s (.accel d) = accel_data_handler d s from rfl,
        accel_data_handler_eq d s hd, foldl_accel_prev, List.getLast?_append]
      cases (delivered rest).getLast? <;> simp
    · push_neg at he
      have hl : delivered (e :: rest) = delivered rest := by
        cases e with
        | accel d => exact absurd rfl (he d)
        | _ => rfl
      rw [hl, dispatch_prev_accel s e he]

lemma init_prev_accel (env : Env) : (init env).prev_accel = zero_accel :=
  (battery_state_handler_fields env.charge _).2.2.1

lemma triggers_iff (stream : List AccelData) (prev accel : AccelData)
    (hp : prev = stream.getLast?.getD zero_accel) :
    (prev.timestamp ≠ 0 ∧ 2500 < |accel.y.val - prev.y.val|) ↔ triggers stream accel := by
  unfold triggers
  cases hl : stream.getLast? with
  | none =>
    rw [hl] at hp
    subst hp
    constructor
    · intro h; exact absurd rfl h.1
    · rintro ⟨p, hp, _⟩; cases hp
  | some q =>
    rw [hl] at hp
    subst hp
    constructor
    · intro h; exact ⟨_, rfl, h⟩
    · rintro ⟨p, hp, h⟩
      cases hp
      exact h

/-- C4: let `data` be a batch handed to `accel_data_handler` after any sequence of
callbacks, all batches holding fewer than 2^31 samples.  The handler runs the loop body
for every sample `data[i]`, and that iteration calls `show_date` once if the sample
delivered immediately before it (the previous element of the batch, or the last sample
of the last earlier batch) exists, has a non-zero timestamp and a `y` differing from that
of `data[i]` by more than 2500 as an exact integer; otherwise it does not call it. -/
theorem accel_show_date_iff (env : Env) (events : List Event) (data : List AccelData)
    (i : Nat) (hi : i < data.length)
    (hsize : ∀ d, Event.accel d ∈ events → d.length < 2147483648)
    (hdata : data.length < 2147483648) :
    let s0 := app_event_loop (init env) events
    let before := (data.take i).foldl accel_iteration s0
    let after := accel_iteration before data[i]
    accel_data_handler data s0 = (data.drop (i + 1)).foldl accel_iteration after ∧
    (after.show_date_calls = before.show_date_calls + 1 ↔
      triggers (delivered events ++ data.take i) data[i]) ∧
    (after.show_date_calls = before.show_date_calls ↔
      ¬ triggers (delivered events ++ data.take i) data[i]) := by
  intro s0 before after
  have hprev : before.prev_accel =
      (delivered events ++ data.take i).getLast?.getD zero_accel := by
    show ((data.take i).foldl accel_iteration s0).prev_accel = _
    rw [foldl_accel_prev, loop_prev_accel events _ hsize, init_prev_accel,
      List.getLast?_append]
    cases (data.take i).getLast? <;> simp
  have hiff := triggers_iff _ _ data[i] hprev
  have hcalls := (accel_iteration_fields before data[i]).2
  refine ⟨?_, ?_, ?_⟩
  · rw [accel_data_handler_eq data s0 hdata]
    conv_lhs => rw [← List.take_append_drop i data, List.drop_eq_getElem_cons hi]
    rw [List.foldl_append, List.foldl_cons]
  · show (accel_iteration before data[i]).show_date_calls = _ ↔ _
    rw [hcalls, ← hiff]
    split_ifs with hc
    · simp [hc]
    · simp [hc]
  · show (accel_iteration before data[i]).show_date_calls = _ ↔ _
    rw [hcalls, ← hiff]
    split_ifs with hc
    · simp [hc]
    · simp [hc]

/-- The instance of C4 across two batches: a sample with `y = 32767` that follows a
sample with `y = -32768` and timestamp 1 triggers one call of `show_date`. -/
theorem accel_show_date_iff_witness :
    triggers (delivered [.accel [sample_accel ⟨-32768, by decide⟩ 1]] ++ [])
      (sample_accel ⟨32767, by decide⟩ 2) ∧
    (accel_iteration (app_event_loop (init sample_env)
        [.accel [sample_accel ⟨-32768, by decide⟩ 1]])
      (sample_accel ⟨32767, by decide⟩ 2)).show_date_calls =
      (app_event_loop (init sample_env)
        [.accel [sample_accel ⟨-32768, by decide⟩ 1]]).show_date_calls + 1 :=
  have ht : triggers (delivered [.accel [sample_accel ⟨-32768, by decide⟩ 1]] ++ [])
      (sample_accel ⟨32767, by decide⟩ 2) :=
    ⟨sample_accel ⟨-32768, by decide⟩ 1, rfl, by decide, by decide⟩
  ⟨ht, ((accel_show_date_iff sample_env [.accel [sample_accel ⟨-32768, by decide⟩ 1]]
      [sample_accel ⟨32767, by decide⟩ 2] 0 (by decide)
      (fun d hd => by
        have e : d = [sample_accel ⟨-32768, by decide⟩ 1] := by simpa using hd
        rw [e]; decide)
      (by decide)).2.1).2 ht⟩

end Piet
